import Mathlib

/-!
# certimate: provider adapters and the workflow node model

A shallow embedding of

* `internal/pkg/core/deployer/providers/aliyun-cdn/aliyun_cdn.go`
* `internal/pkg/core/uploader/providers/volcengine-certcenter/volcengine_certcenter.go`
* `internal/domain/workflow.go`

Go values are modelled as follows.

* A Go `string` is a Lean `String`.  The only string operations the adapters
  perform are comparison with `""`, concatenation, and `strings.TrimPrefix`
  with the one-byte ASCII pattern `"*"`; on UTF-8 text these agree byte-wise
  and character-wise.
* A pointer `*T` is an `Option T` (`nil` is `none`); `tea.String`, `ve.String`
  and `ve.Bool` allocate, so they are `some`.
* An `error` is an `Option GoError` (`nil` is `none`).
* A call of a function with results `(*T, error)` ends in a `GoReturn T`:
  either it returns a pair, or it panics.
* The vendor SDK clients are the environment: a client is a function from the
  request it is handed to the `(response, error)` pair it answers with.
* `time.Now().UnixMilli()` is read from the environment as a parameter.
* `logger.Debug` writes a log record and has no influence on the results; it
  is left out.

The source files declare the workflow graph types only.  The Graph Validator
the specification describes is not among them; `Domain.Validate` is modelled
from the specification's text.
-/

namespace Certimate

/-! ## Go runtime model -/

/-- A Go `error` value.  `plain` stands for any error that wraps nothing
(`errors.New`, the SDKs' own error types); `wrapError` is the value
`fmt.Errorf` builds for a format with one `%w` verb (`fmt.wrapError{msg, err}`). -/
inductive GoError where
  | plain (msg : String)
  | wrapError (msg : String) (err : GoError)
  deriving DecidableEq, Repr

namespace GoError

/-- The `Error()` method. -/
def Error : GoError → String
  | plain msg => msg
  | wrapError msg _ => msg

/-- The function `errors.Unwrap`. -/
def Unwrap : GoError → Option GoError
  | plain _ => none
  | wrapError _ err => some err

end GoError

/-- The call `errors.New(text)`. -/
def errorsNew (text : String) : GoError := GoError.plain text

/-- The call `fmt.Errorf(lead ++ "%w", err)` where `lead` has no verbs: the
message is `lead` followed by `err.Error()`, and the value unwraps to `err`. -/
def fmtErrorfW (lead : String) (err : GoError) : GoError :=
  GoError.wrapError (lead ++ err.Error) err

/-- How a call of a Go function with results `(*T, error)` ends. -/
inductive GoReturn (α : Type) where
  | returned (result : Option α) (err : Option GoError)
  | panicked (msg : String)
  deriving DecidableEq, Repr

/-- A run of an adapter method: the requests it handed to the SDK client, in
order, and how the call ended. -/
structure Traced (ρ α : Type) where
  calls : List ρ
  outcome : GoReturn α
  deriving DecidableEq, Repr

/-- The error a finished `context.Context` reports. -/
inductive ContextError where
  | Canceled
  | DeadlineExceeded
  deriving DecidableEq, Repr

/-- A `context.Context` as a callee can observe it: `Err()` is `nil` while the
context is live, and `Canceled` or `DeadlineExceeded` once it is done. -/
structure Context where
  Err : Option ContextError
  deriving DecidableEq, Repr

/-- The context is already canceled or past its deadline. -/
def Context.done (ctx : Context) : Bool := ctx.Err.isSome

/-- The function `strings.HasPrefix(s, pre)`. -/
def stringsHasPrefix (s pre : String) : Bool :=
  pre.data.isPrefixOf s.data

/-- The function `strings.TrimPrefix(s, pre)`: `s[len(pre):]` when `s` starts
with `pre`, and `s` itself otherwise. -/
def stringsTrimPrefix (s pre : String) : String :=
  if stringsHasPrefix s pre then ⟨s.data.drop pre.data.length⟩ else s

/-- The text `sub` occurs in `s` (`strings.Contains(s, sub)`). -/
def stringsContains (s sub : String) : Bool :=
  s.data.tails.any fun t => sub.data.isPrefixOf t

/-! ## aliyun-cdn deployer -/

namespace AliyunCdn

/-- The struct `DeployerConfig`. -/
structure DeployerConfig where
  AccessKeyId : String
  AccessKeySecret : String
  ResourceGroupId : String
  Domain : String
  deriving DecidableEq, Repr

/-- The SDK struct `alicdn.SetCdnDomainSSLCertificateRequest`, with the fields
`Deploy` fills. -/
structure SetCdnDomainSSLCertificateRequest where
  DomainName : Option String
  CertName : Option String
  CertType : Option String
  SSLProtocol : Option String
  SSLPub : Option String
  SSLPri : Option String
  deriving DecidableEq, Repr

/-- The SDK struct `alicdn.SetCdnDomainSSLCertificateResponse`; `Deploy` only
logs it. -/
structure SetCdnDomainSSLCertificateResponse where
  StatusCode : Option Int
  RequestId : Option String
  deriving DecidableEq, Repr

/-- The method `(*alicdn.Client).SetCdnDomainSSLCertificate`. -/
abbrev SdkClient :=
  SetCdnDomainSSLCertificateRequest →
    Option SetCdnDomainSSLCertificateResponse × Option GoError

/-- The struct `deployer.DeployResult`, which `Deploy` leaves empty. -/
structure DeployResult where
  deriving DecidableEq, Repr

/-- The struct `DeployerProvider` (without its logger). -/
structure DeployerProvider where
  config : DeployerConfig
  sdkClient : SdkClient

/-- Lines 64-75 of `Deploy`: the request built from the configuration, the
clock and the certificate material. -/
def setCdnDomainSSLCertificateReq (d : DeployerProvider) (nowMilli : Int)
    (certPEM privkeyPEM : String) : SetCdnDomainSSLCertificateRequest :=
  let domain := stringsTrimPrefix d.config.Domain "*"
  { DomainName := some domain
    CertName := some ("certimate-" ++ toString nowMilli)
    CertType := some "upload"
    SSLProtocol := some "on"
    SSLPub := some certPEM
    SSLPri := some privkeyPEM }

/-- The method `(*DeployerProvider).Deploy`, with the SDK calls it makes on
the way.  The context parameter is never read by the body. -/
def Deploy (d : DeployerProvider) (nowMilli : Int) (_ctx : Context)
    (certPEM privkeyPEM : String) :
    Traced SetCdnDomainSSLCertificateRequest DeployResult :=
  let req := setCdnDomainSSLCertificateReq d nowMilli certPEM privkeyPEM
  match d.sdkClient req with
  | (_, some err) =>
    { calls := [req]
      outcome := GoReturn.returned none
        (some (fmtErrorfW "failed to execute sdk request 'cdn.SetCdnDomainSSLCertificate': " err)) }
  | (_, none) =>
    { calls := [req]
      outcome := GoReturn.returned (some {}) none }

end AliyunCdn

/-! ## volcengine-certcenter uploader -/

namespace VolcengineCertcenter

/-- The struct `UploaderConfig`. -/
structure UploaderConfig where
  AccessKeyId : String
  AccessKeySecret : String
  Region : String
  deriving DecidableEq, Repr

/-- The SDK struct `veccsdk.ImportCertificateInputCertificateInfo`. -/
structure ImportCertificateInputCertificateInfo where
  CertificateChain : Option String
  PrivateKey : Option String
  deriving DecidableEq, Repr

/-- The SDK struct `veccsdk.ImportCertificateInput`, with the fields `Upload`
fills. -/
structure ImportCertificateInput where
  CertificateInfo : Option ImportCertificateInputCertificateInfo
  Repeatable : Option Bool
  deriving DecidableEq, Repr

/-- The SDK struct `veccsdk.ImportCertificateOutput`, with the fields `Upload`
reads. -/
structure ImportCertificateOutput where
  InstanceId : Option String
  RepeatId : Option String
  deriving DecidableEq, Repr

/-- The method `(*veccsdk.CertCenter).ImportCertificate`. -/
abbrev SdkClient :=
  ImportCertificateInput → Option ImportCertificateOutput × Option GoError

/-- The struct `uploader.UploadResult`, with the field `Upload` fills. -/
structure UploadResult where
  CertId : String
  deriving DecidableEq, Repr

/-- The struct `UploaderProvider` (without its logger). -/
structure UploaderProvider where
  config : UploaderConfig
  sdkClient : SdkClient

/-- Lines 62-68 of `Upload`: the import request. -/
def importCertificateReq (certPEM privkeyPEM : String) : ImportCertificateInput :=
  { CertificateInfo := some
      { CertificateChain := some certPEM
        PrivateKey := some privkeyPEM }
    Repeatable := some false }

/-- Lines 75-81 of `Upload`: `certId` starts as `""`, is set to `*InstanceId`
when that is non-nil and non-empty, and is then set to `*RepeatId` when that is
non-nil and non-empty. -/
def certIdOf (resp : ImportCertificateOutput) : String :=
  let certId := ""
  let certId :=
    match resp.InstanceId with
    | some s => if s ≠ "" then s else certId
    | none => certId
  let certId :=
    match resp.RepeatId with
    | some s => if s ≠ "" then s else certId
    | none => certId
  certId

/-- The method `(*UploaderProvider).Upload`, with the SDK calls it makes on the
way.  The context parameter is never read by the body.  When the client
answers `(nil, nil)`, reading `importCertificateResp.InstanceId` dereferences a
nil pointer. -/
def Upload (u : UploaderProvider) (_ctx : Context) (certPEM privkeyPEM : String) :
    Traced ImportCertificateInput UploadResult :=
  let req := importCertificateReq certPEM privkeyPEM
  match u.sdkClient req with
  | (_, some err) =>
    { calls := [req]
      outcome := GoReturn.returned none
        (some (fmtErrorfW "failed to execute sdk request 'certcenter.ImportCertificate': " err)) }
  | (none, none) =>
    { calls := [req]
      outcome := GoReturn.panicked "runtime error: invalid memory address or nil pointer dereference" }
  | (some resp, none) =>
    let certId := certIdOf resp
    if certId = "" then
      { calls := [req]
        outcome := GoReturn.returned none
          (some (errorsNew
            "failed to get certificate id from response, both \x60InstanceId\x60 and \x60RepeatId\x60 are empty")) }
    else
      { calls := [req]
        outcome := GoReturn.returned (some { CertId := certId }) none }

/-- The SDK struct `ve.Config`, with the fields `createSdkClient` sets. -/
structure VeConfig where
  Region : Option String
  AccessKeyId : String
  SecretAccessKey : String
  deriving DecidableEq, Repr

/-- Lines 93-97 of `createSdkClient`: the configuration the session is opened
with. -/
def sessionConfig (accessKeyId accessKeySecret region : String) : VeConfig :=
  let region := if region = "" then "cn-beijing" else region
  { Region := some region
    AccessKeyId := accessKeyId
    SecretAccessKey := accessKeySecret }

/-- The function `createSdkClient`.  `NewSession` is `vesession.NewSession` and
`New` is `veccsdk.New`; `σ` is the SDK's session type. -/
def createSdkClient {σ : Type} (NewSession : VeConfig → Option σ × Option GoError)
    (New : Option σ → SdkClient) (accessKeyId accessKeySecret region : String) :
    Traced VeConfig SdkClient :=
  let config := sessionConfig accessKeyId accessKeySecret region
  match NewSession config with
  | (_, some err) =>
    { calls := [config]
      outcome := GoReturn.returned none (some err) }
  | (session, none) =>
    { calls := [config]
      outcome := GoReturn.returned (some (New session)) none }

end VolcengineCertcenter

/-! ## workflow domain model -/

namespace Domain

/-- A value of Go type `any` as `encoding/json` decodes one. -/
inductive AnyValue where
  | null
  | bool (b : Bool)
  | number (n : Int)
  | string (s : String)
  | array (items : List AnyValue)
  | object (fields : List (String × AnyValue))

/-- The struct `WorkflowNodeIOValueSelector`. -/
structure WorkflowNodeIOValueSelector where
  Id : String
  Name : String

/-- The struct `WorkflowNodeIO`; the field `Type` is named `IOType` here. -/
structure WorkflowNodeIO where
  Label : String
  Name : String
  IOType : String
  Required : Bool
  Value : AnyValue
  ValueSelector : WorkflowNodeIOValueSelector

/-- The struct `WorkflowNode`; the field `Type` is named `NodeType` here.
`Next` is a pointer and `Branches` a slice of nodes, so the type is recursive
through both. -/
inductive WorkflowNode where
  | mk (Id : String) (Name : String) (Next : Option WorkflowNode)
      (Config : List (String × AnyValue))
      (Inputs : List WorkflowNodeIO) (Outputs : List WorkflowNodeIO)
      (Validated : Bool) (NodeType : String) (Branches : List WorkflowNode)

namespace WorkflowNode

/-- The field `Next`. -/
def Next : WorkflowNode → Option WorkflowNode
  | mk _ _ next _ _ _ _ _ _ => next

/-- The field `Branches`. -/
def Branches : WorkflowNode → List WorkflowNode
  | mk _ _ _ _ _ _ _ _ branches => branches

/-- The field `Type`. -/
def NodeType : WorkflowNode → String
  | mk _ _ _ _ _ _ _ nodeType _ => nodeType

/-- The field `Id`. -/
def Id : WorkflowNode → String
  | mk id _ _ _ _ _ _ _ _ => id

/-- The node has a successor: `n.Next != nil`. -/
def hasNext (n : WorkflowNode) : Bool := n.Next.isSome

/-- The node fans out: `len(n.Branches) > 0`. -/
def hasBranches (n : WorkflowNode) : Bool := !n.Branches.isEmpty

/-- A node with the given `Id`, `Type`, successor and branches, and every other
field at its zero value. -/
def ofLinks (id nodeType : String) (next : Option WorkflowNode)
    (branches : List WorkflowNode) : WorkflowNode :=
  mk id "" next [] [] [] false nodeType branches

mutual

/-- Every node of the graph rooted at a node: the node itself, the nodes of
its `Next` chain, and the nodes of each of its `Branches`, nested ones
included. -/
def nodes : WorkflowNode → List WorkflowNode
  | mk id name next config inputs outputs validated nodeType branches =>
    mk id name next config inputs outputs validated nodeType branches ::
      (nodesOfNext next ++ nodesOfBranches branches)

/-- The nodes reached through a `Next` pointer. -/
def nodesOfNext : Option WorkflowNode → List WorkflowNode
  | none => []
  | some n => nodes n

/-- The nodes reached through a `Branches` slice. -/
def nodesOfBranches : List WorkflowNode → List WorkflowNode
  | [] => []
  | n :: ns => nodes n ++ nodesOfBranches ns

end

end WorkflowNode

/-- The constant `WorkflowNodeTypeStart`. -/
def WorkflowNodeTypeStart : String := "start"

/-- The constant `WorkflowNodeTypeEnd`. -/
def WorkflowNodeTypeEnd : String := "end"

/-- The constant `WorkflowNodeTypeApply`. -/
def WorkflowNodeTypeApply : String := "apply"

/-- The constant `WorkflowNodeTypeDeploy`. -/
def WorkflowNodeTypeDeploy : String := "deploy"

/-- The constant `WorkflowNodeTypeNotify`. -/
def WorkflowNodeTypeNotify : String := "notify"

/-- The constant `WorkflowNodeTypeBranch`. -/
def WorkflowNodeTypeBranch : String := "branch"

/-- The constant `WorkflowNodeTypeCondition`. -/
def WorkflowNodeTypeCondition : String := "condition"

/-- The struct `Workflow` (without its embedded `Meta`). -/
structure Workflow where
  Name : String
  Description : String
  Trigger : String
  TriggerCron : String
  Enabled : Bool
  Content : Option WorkflowNode
  Draft : Option WorkflowNode
  HasDraft : Bool

/-- The node `n` occurs in the graph rooted at `graph`: it is the root, or it
occurs in the graph of the root's successor or of one of the root's branches. -/
inductive InGraph : WorkflowNode → WorkflowNode → Prop where
  | root (graph : WorkflowNode) : InGraph graph graph
  | next {graph m n : WorkflowNode} : graph.Next = some m → InGraph m n → InGraph graph n
  | branch {graph m n : WorkflowNode} : m ∈ graph.Branches → InGraph m n → InGraph graph n

/-- Modelled from the spec: the error kinds of the Graph Validator of section
4.1, which is not among the source files.  Each check produces a distinct
kind; the structural check has one kind for each of its four conditions. -/
inductive ViolationKind where
  | StartCount
  | Unterminated
  | DuplicateId
  | NextAndBranches
  | TypeLegality
  | PortLegality
  | ProviderLegality
  deriving DecidableEq, Repr

/-- Modelled from the spec: one entry of the validator's result, the kind of
the violation and the id of the node it was found at. -/
structure Violation where
  kind : ViolationKind
  nodeId : String
  deriving DecidableEq, Repr

/-- The number of `start` nodes in a graph, nested branches included. -/
def startCount (graph : WorkflowNode) : Nat :=
  (graph.nodes.filter fun n => n.NodeType == WorkflowNodeTypeStart).length

/-- The number of nodes of a graph that carry the id `id`, nested branches
included. -/
def idCount (graph : WorkflowNode) (id : String) : Nat :=
  (graph.nodes.filter fun n => n.Id == id).length

/-- Modelled from the spec: the validator's verdict on one node of a graph
(section 4.1: the checks run in order and the first violation found at a node
is the one reported for it).  Check 1, structural, in the order the spec lists
its conditions: the chain of a node without successor terminates at an `end`
node or at a node that fans out; the node's id is unique across the whole
graph including nested branches; `next` and `branches` are not both set.
Checks 2 to 4 (type, port and provider legality) depend on node
configuration and on the capability registry; they are the parameter
`laterChecks` and run only on a node that passes check 1. -/
def nodeViolation (laterChecks : WorkflowNode → WorkflowNode → Option ViolationKind)
    (graph n : WorkflowNode) : Option Violation :=
  if n.Next.isNone && n.Branches.isEmpty && n.NodeType != WorkflowNodeTypeEnd then
    some { kind := ViolationKind.Unterminated, nodeId := n.Id }
  else if idCount graph n.Id != 1 then
    some { kind := ViolationKind.DuplicateId, nodeId := n.Id }
  else if n.hasNext && n.hasBranches then
    some { kind := ViolationKind.NextAndBranches, nodeId := n.Id }
  else
    (laterChecks graph n).map fun kind => { kind := kind, nodeId := n.Id }

/-- Modelled from the spec: `Validate(graph)` of section 4.1, which is not
among the source files.  It is exhaustive: it returns the complete set of
violations, the one on the number of `start` nodes (exactly one is required)
followed by the verdict on every node of the graph; the graph is valid when
the result is empty. -/
def Validate (laterChecks : WorkflowNode → WorkflowNode → Option ViolationKind)
    (graph : WorkflowNode) : List Violation :=
  (if startCount graph != 1 then
      [{ kind := ViolationKind.StartCount, nodeId := graph.Id }]
    else []) ++
  graph.nodes.filterMap (nodeViolation laterChecks graph)

end Domain

/-! ## Concrete inputs -/

/-- A context that has been canceled. -/
def canceledCtx : Context := { Err := some ContextError.Canceled }

/-- A context past its deadline. -/
def expiredCtx : Context := { Err := some ContextError.DeadlineExceeded }

/-- A live context. -/
def liveCtx : Context := { Err := none }

namespace AliyunCdn

/-- The name in the package clause of `aliyun_cdn.go`. -/
def packageName : String := "aliyuncdn"

/-- The provider's directory under `deployer/providers`. -/
def providerDir : String := "aliyun-cdn"

/-- A client whose call succeeds. -/
def okClient : SdkClient :=
  fun _ => (some { StatusCode := some 200, RequestId := some "req-1" }, none)

/-- A client whose call fails with `e`. -/
def failClient (e : GoError) : SdkClient := fun _ => (none, some e)

/-- A configuration for a wildcard domain. -/
def wildcardConfig : DeployerConfig :=
  { AccessKeyId := "ak", AccessKeySecret := "sk", ResourceGroupId := "", Domain := "*.example.com" }

/-- A provider for a wildcard domain whose SDK call succeeds. -/
def okProvider : DeployerProvider := { config := wildcardConfig, sdkClient := okClient }

/-- A provider whose SDK call fails with the error `boom`. -/
def boomProvider : DeployerProvider :=
  { config := wildcardConfig, sdkClient := failClient (GoError.plain "boom") }

end AliyunCdn

namespace VolcengineCertcenter

/-- A client that answers every request with `resp` and no error. -/
def answerClient (resp : ImportCertificateOutput) : SdkClient := fun _ => (some resp, none)

/-- A configuration without a region. -/
def sampleConfig : UploaderConfig := { AccessKeyId := "ak", AccessKeySecret := "sk", Region := "" }

/-- A response carrying both ids. -/
def bothIds : ImportCertificateOutput := { InstanceId := some "cert-new", RepeatId := some "cert-old" }

/-- A response carrying only an instance id. -/
def instanceOnly : ImportCertificateOutput := { InstanceId := some "cert-new", RepeatId := some "" }

/-- A response whose two ids are the same text. -/
def sameIds : ImportCertificateOutput := { InstanceId := some "x", RepeatId := some "x" }

/-- A provider whose SDK call answers with twice the same id. -/
def sameIdsProvider : UploaderProvider := { config := sampleConfig, sdkClient := answerClient sameIds }

/-- A provider whose SDK call answers with both ids. -/
def bothIdsProvider : UploaderProvider := { config := sampleConfig, sdkClient := answerClient bothIds }

/-- A provider whose SDK call answers with an instance id only. -/
def instanceOnlyProvider : UploaderProvider :=
  { config := sampleConfig, sdkClient := answerClient instanceOnly }

end VolcengineCertcenter

namespace Domain

/-- Later checks that find nothing. -/
def noLaterChecks : WorkflowNode → WorkflowNode → Option ViolationKind := fun _ _ => none

/-- An `end` node with id `n3`. -/
def endNode : WorkflowNode := WorkflowNode.ofLinks "n3" WorkflowNodeTypeEnd none []

/-- A `deploy` node with id `n2`, followed by `endNode`. -/
def deployThenEnd : WorkflowNode :=
  WorkflowNode.ofLinks "n2" WorkflowNodeTypeDeploy (some endNode) []

/-- The graph `start -> deploy -> end`. -/
def linearGraph : WorkflowNode :=
  WorkflowNode.ofLinks "n1" WorkflowNodeTypeStart (some deployThenEnd) []

/-- A `branch` node with id `n2` that has two branches and a successor. -/
def branchThenEnd : WorkflowNode :=
  WorkflowNode.ofLinks "n2" WorkflowNodeTypeBranch (some endNode)
    [WorkflowNode.ofLinks "n4" WorkflowNodeTypeEnd none [],
     WorkflowNode.ofLinks "n5" WorkflowNodeTypeEnd none []]

/-- The graph `start -> branch -> end` in which the branch node also fans out. -/
def branchGraph : WorkflowNode :=
  WorkflowNode.ofLinks "n1" WorkflowNodeTypeStart (some branchThenEnd) []

end Domain

/-! ## Lemmas on the runtime model -/

/-- Trimming `*` from `"*" ++ rest` leaves `rest`. -/
theorem stringsTrimPrefix_star_append (rest : String) :
    stringsTrimPrefix ("*" ++ rest) "*" = rest := by
  have hdata : ("*" ++ rest).data = '*' :: rest.data := by
    rw [String.data_append]
    rfl
  have hlen : ("*" : String).data.length = 1 := rfl
  have hpre : stringsHasPrefix ("*" ++ rest) "*" = true := by
    unfold stringsHasPrefix
    rw [hdata]
    show List.isPrefixOf ['*'] ('*' :: rest.data) = true
    simp [List.isPrefixOf]
  unfold stringsTrimPrefix
  rw [if_pos hpre, hdata, hlen]
  rfl

/-- Trimming `*` from a string that does not start with `*` changes nothing. -/
theorem stringsTrimPrefix_star_of_no_star (s : String) (hs : ∀ rest : String, s ≠ "*" ++ rest) :
    stringsTrimPrefix s "*" = s := by
  have hpre : stringsHasPrefix s "*" = false := by
    obtain ⟨cs⟩ := s
    cases cs with
    | nil => rfl
    | cons c t =>
      by_cases hc : c = '*'
      · subst hc
        exact absurd rfl (hs ⟨t⟩)
      · unfold stringsHasPrefix
        show List.isPrefixOf ['*'] (c :: t) = false
        have hne : ('*' == c) = false := by
          simpa using fun h => hc h.symm
        simp [List.isPrefixOf, hne]
  unfold stringsTrimPrefix
  rw [hpre]
  rfl

/-- A string contains each of its middle parts. -/
theorem stringsContains_infix (a b c : String) : stringsContains (a ++ b ++ c) b = true := by
  unfold stringsContains
  rw [List.any_eq_true]
  refine ⟨b.data ++ c.data, ?_, ?_⟩
  · rw [List.mem_tails]
    refine ⟨a.data, ?_⟩
    simp [String.data_append, List.append_assoc]
  · rw [List.isPrefixOf_iff_prefix]
    exact List.prefix_append _ _

/-- The id read from a response is empty exactly when both ids are nil or empty. -/
theorem certIdOf_eq_empty_iff (resp : VolcengineCertcenter.ImportCertificateOutput) :
    VolcengineCertcenter.certIdOf resp = "" ↔
      (resp.InstanceId = none ∨ resp.InstanceId = some "") ∧
      (resp.RepeatId = none ∨ resp.RepeatId = some "") := by
  obtain ⟨inst, rep⟩ := resp
  cases inst with
  | none =>
    cases rep with
    | none => simp [VolcengineCertcenter.certIdOf]
    | some r => by_cases hr : r = "" <;> simp [VolcengineCertcenter.certIdOf, hr]
  | some i =>
    cases rep with
    | none => by_cases hi : i = "" <;> simp [VolcengineCertcenter.certIdOf, hi]
    | some r =>
      by_cases hi : i = "" <;> by_cases hr : r = "" <;>
        simp [VolcengineCertcenter.certIdOf, hi, hr]

/-- A non-empty `RepeatId` is the id read from a response. -/
theorem certIdOf_of_repeatId (resp : VolcengineCertcenter.ImportCertificateOutput) (r : String)
    (hrep : resp.RepeatId = some r) (hr : r ≠ "") :
    VolcengineCertcenter.certIdOf resp = r := by
  obtain ⟨inst, rep⟩ := resp
  simp only at hrep
  subst hrep
  simp [VolcengineCertcenter.certIdOf, hr]

/-- Without a `RepeatId`, a non-empty `InstanceId` is the id read from a response. -/
theorem certIdOf_of_instanceId (resp : VolcengineCertcenter.ImportCertificateOutput) (i : String)
    (hrep : resp.RepeatId = none ∨ resp.RepeatId = some "")
    (hinst : resp.InstanceId = some i) (hi : i ≠ "") :
    VolcengineCertcenter.certIdOf resp = i := by
  obtain ⟨inst, rep⟩ := resp
  simp only at hrep hinst
  subst hinst
  rcases hrep with h | h <;> subst h <;> simp [VolcengineCertcenter.certIdOf, hi]

/-- What `Upload` returns once the SDK call has answered with a response and no error. -/
theorem Upload_outcome_of_response (u : VolcengineCertcenter.UploaderProvider) (ctx : Context)
    (certPEM privkeyPEM : String) (resp : VolcengineCertcenter.ImportCertificateOutput)
    (hsdk : u.sdkClient (VolcengineCertcenter.importCertificateReq certPEM privkeyPEM) =
      (some resp, none)) :
    (VolcengineCertcenter.Upload u ctx certPEM privkeyPEM).outcome =
      if VolcengineCertcenter.certIdOf resp = "" then
        GoReturn.returned none (some (errorsNew
          "failed to get certificate id from response, both \x60InstanceId\x60 and \x60RepeatId\x60 are empty"))
      else
        GoReturn.returned (some { CertId := VolcengineCertcenter.certIdOf resp }) none := by
  unfold VolcengineCertcenter.Upload
  simp only [hsdk]
  split <;> rfl

/-- What `Deploy` returns when the SDK call fails. -/
theorem Deploy_outcome_of_error (d : AliyunCdn.DeployerProvider) (nowMilli : Int) (ctx : Context)
    (certPEM privkeyPEM : String) (e : GoError)
    (hsdk : (d.sdkClient (AliyunCdn.setCdnDomainSSLCertificateReq d nowMilli certPEM privkeyPEM)).2 =
      some e) :
    (AliyunCdn.Deploy d nowMilli ctx certPEM privkeyPEM).outcome =
      GoReturn.returned none
        (some (fmtErrorfW "failed to execute sdk request 'cdn.SetCdnDomainSSLCertificate': " e)) := by
  unfold AliyunCdn.Deploy
  simp only
  split
  next _ err heq =>
    rw [heq] at hsdk
    cases hsdk
    rfl
  next _ heq =>
    rw [heq] at hsdk
    cases hsdk

/-- What `Deploy` returns when the SDK call succeeds. -/
theorem Deploy_outcome_of_success (d : AliyunCdn.DeployerProvider) (nowMilli : Int) (ctx : Context)
    (certPEM privkeyPEM : String)
    (hsdk : (d.sdkClient (AliyunCdn.setCdnDomainSSLCertificateReq d nowMilli certPEM privkeyPEM)).2 =
      none) :
    (AliyunCdn.Deploy d nowMilli ctx certPEM privkeyPEM).outcome =
      GoReturn.returned (some {}) none := by
  unfold AliyunCdn.Deploy
  simp only
  split
  next _ err heq =>
    rw [heq] at hsdk
    cases hsdk
  next _ heq => rfl

/-- The node list of a graph starts with its root and continues with the
nodes behind `Next` and `Branches`. -/
theorem nodes_eq_cons (n : Domain.WorkflowNode) :
    n.nodes = n :: (Domain.WorkflowNode.nodesOfNext n.Next ++
      Domain.WorkflowNode.nodesOfBranches n.Branches) := by
  cases n
  simp [Domain.WorkflowNode.nodes, Domain.WorkflowNode.Next, Domain.WorkflowNode.Branches]

/-- The nodes of a branch are among the nodes behind the `Branches` slice. -/
theorem mem_nodesOfBranches (bs : List Domain.WorkflowNode) (m x : Domain.WorkflowNode)
    (hm : m ∈ bs) (hx : x ∈ m.nodes) : x ∈ Domain.WorkflowNode.nodesOfBranches bs := by
  induction bs with
  | nil => cases hm
  | cons b rest ih =>
    rw [Domain.WorkflowNode.nodesOfBranches, List.mem_append]
    rcases List.mem_cons.mp hm with h | h
    · left
      rw [← h]
      exact hx
    · right
      exact ih h

/-- Every node that occurs in a graph is in the graph's node list. -/
theorem mem_nodes_of_inGraph (graph n : Domain.WorkflowNode) (h : Domain.InGraph graph n) :
    n ∈ graph.nodes := by
  induction h with
  | root g =>
    rw [nodes_eq_cons]
    exact List.mem_cons_self _ _
  | next hnext _ ih =>
    rw [nodes_eq_cons, hnext]
    exact List.mem_cons_of_mem _ (List.mem_append_left _ ih)
  | branch hmem _ ih =>
    rw [nodes_eq_cons]
    exact List.mem_cons_of_mem _
      (List.mem_append_right _ (mem_nodesOfBranches _ _ _ hmem ih))

/-- A node on which the validator reports nothing has no successor or no
branches. -/
theorem exclusive_of_nodeViolation_none
    (laterChecks : Domain.WorkflowNode → Domain.WorkflowNode → Option Domain.ViolationKind)
    (graph n : Domain.WorkflowNode)
    (h : Domain.nodeViolation laterChecks graph n = none) :
    (n.hasNext && n.hasBranches) = false := by
  unfold Domain.nodeViolation at h
  split at h
  · cases h
  · split at h
    · cases h
    · split at h
      · cases h
      · rename_i hboth
        simpa using hboth

/-! ## Theorems -/

/-- C1: when the `certcenter.ImportCertificate` call succeeds with response
`resp`, `Upload` returns; it returns an error and no result exactly when both
`InstanceId` and `RepeatId` are nil or empty, and in every other case it
returns a nil error and a result whose `CertId` is non-empty. -/
theorem VolcengineCertcenter.Upload_error_iff_ids_empty
    (u : UploaderProvider) (ctx : Context) (certPEM privkeyPEM : String)
    (resp : ImportCertificateOutput)
    (hsdk : u.sdkClient (importCertificateReq certPEM privkeyPEM) = (some resp, none)) :
    ∃ result err, (Upload u ctx certPEM privkeyPEM).outcome = GoReturn.returned result err ∧
      ((err ≠ none ∧ result = none) ↔
        ((resp.InstanceId = none ∨ resp.InstanceId = some "") ∧
         (resp.RepeatId = none ∨ resp.RepeatId = some ""))) ∧
      (¬ ((resp.InstanceId = none ∨ resp.InstanceId = some "") ∧
          (resp.RepeatId = none ∨ resp.RepeatId = some "")) →
        err = none ∧ ∃ r, result = some r ∧ r.CertId ≠ "") := by
  have hiff := certIdOf_eq_empty_iff resp
  unfold Upload
  simp only [hsdk]
  by_cases hc : certIdOf resp = ""
  · rw [if_pos hc]
    refine ⟨_, _, rfl, ?_, ?_⟩
    · simp [hiff.mp hc]
    · intro hn
      exact absurd (hiff.mp hc) hn
  · rw [if_neg hc]
    refine ⟨_, _, rfl, ?_, ?_⟩
    · have hn := fun h => hc (hiff.mpr h)
      constructor
      · intro h
        exact absurd rfl h.1
      · intro h
        exact absurd h hn
    · intro _
      exact ⟨rfl, _, rfl, hc⟩

/-- C1, at a response with an instance id only. -/
theorem VolcengineCertcenter.Upload_error_iff_ids_empty_witness :
    instanceOnlyProvider.sdkClient (importCertificateReq "CERT" "KEY") = (some instanceOnly, none) ∧
    ∃ result err,
      (Upload instanceOnlyProvider liveCtx "CERT" "KEY").outcome = GoReturn.returned result err ∧
      ((err ≠ none ∧ result = none) ↔
        ((instanceOnly.InstanceId = none ∨ instanceOnly.InstanceId = some "") ∧
         (instanceOnly.RepeatId = none ∨ instanceOnly.RepeatId = some ""))) ∧
      (¬ ((instanceOnly.InstanceId = none ∨ instanceOnly.InstanceId = some "") ∧
          (instanceOnly.RepeatId = none ∨ instanceOnly.RepeatId = some "")) →
        err = none ∧ ∃ r, result = some r ∧ r.CertId ≠ "") :=
  ⟨rfl, Upload_error_iff_ids_empty instanceOnlyProvider liveCtx "CERT" "KEY" instanceOnly rfl⟩

/-- C8, counterexample: when the response carries the same non-empty text as
`InstanceId` and as `RepeatId`, the returned `CertId` equals `InstanceId`
although `RepeatId` is neither nil nor empty. -/
theorem VolcengineCertcenter.Upload_certId_equals_instanceId_with_repeatId :
    sameIdsProvider.sdkClient (importCertificateReq "CERT" "KEY") = (some sameIds, none) ∧
    sameIds.InstanceId = some "x" ∧
    (Upload sameIdsProvider liveCtx "CERT" "KEY").outcome =
      GoReturn.returned (some { CertId := "x" }) none ∧
    ¬ ((sameIds.RepeatId = none ∨ sameIds.RepeatId = some "") ∧
       (sameIds.InstanceId ≠ none ∧ sameIds.InstanceId ≠ some "")) := by
  refine ⟨rfl, rfl, ?_, ?_⟩
  · decide
  · decide

/-- C8, amended: when the `certcenter.ImportCertificate` call succeeds with
response `resp`, the `CertId` that `Upload` returns is `RepeatId` whenever
`RepeatId` is non-nil and non-empty, whatever `InstanceId` holds; it is
`InstanceId` when `RepeatId` is nil or empty and `InstanceId` is non-nil and
non-empty; and a returned `CertId` that is the instance id and differs from
the repeat id occurs only in that second case. -/
theorem VolcengineCertcenter.Upload_certId_prefers_repeatId
    (u : UploaderProvider) (ctx : Context) (certPEM privkeyPEM : String)
    (resp : ImportCertificateOutput)
    (hsdk : u.sdkClient (importCertificateReq certPEM privkeyPEM) = (some resp, none)) :
    (∀ r, resp.RepeatId = some r → r ≠ "" →
      (Upload u ctx certPEM privkeyPEM).outcome =
        GoReturn.returned (some { CertId := r }) none) ∧
    (∀ i, (resp.RepeatId = none ∨ resp.RepeatId = some "") →
      resp.InstanceId = some i → i ≠ "" →
      (Upload u ctx certPEM privkeyPEM).outcome =
        GoReturn.returned (some { CertId := i }) none) ∧
    (∀ i, resp.InstanceId = some i → resp.RepeatId ≠ some i →
      (Upload u ctx certPEM privkeyPEM).outcome =
        GoReturn.returned (some { CertId := i }) none →
      (resp.RepeatId = none ∨ resp.RepeatId = some "") ∧ i ≠ "") := by
  have hout := Upload_outcome_of_response u ctx certPEM privkeyPEM resp hsdk
  refine ⟨?_, ?_, ?_⟩
  · intro r hrep hr
    have hc := certIdOf_of_repeatId resp r hrep hr
    rw [hout, hc, if_neg hr]
  · intro i hrep hinst hi
    have hc := certIdOf_of_instanceId resp i hrep hinst hi
    rw [hout, hc, if_neg hi]
  · intro i _ hne hres
    rw [hout] at hres
    by_cases hc : certIdOf resp = ""
    · rw [if_pos hc] at hres
      simp at hres
    · rw [if_neg hc] at hres
      have hci : certIdOf resp = i := by
        simpa using hres
      have hi : i ≠ "" := hci ▸ hc
      refine ⟨?_, hi⟩
      cases hrep : resp.RepeatId with
      | none => exact Or.inl rfl
      | some r =>
        right
        by_cases hr : r = ""
        · rw [hr]
        · have hcr := certIdOf_of_repeatId resp r hrep hr
          rw [hrep] at hne
          exact absurd (congrArg some (hcr.symm.trans hci)) hne

/-- C8 amended, at a response that carries both ids: the repeat id is returned. -/
theorem VolcengineCertcenter.Upload_certId_prefers_repeatId_witness :
    bothIdsProvider.sdkClient (importCertificateReq "CERT" "KEY") = (some bothIds, none) ∧
    (Upload bothIdsProvider liveCtx "CERT" "KEY").outcome =
      GoReturn.returned (some { CertId := "cert-old" }) none :=
  ⟨rfl, (Upload_certId_prefers_repeatId bothIdsProvider liveCtx "CERT" "KEY" bothIds rfl).1
    "cert-old" rfl (by decide)⟩

/-- C2: for every certificate, key and SDK outcome, `Deploy` returns, and
returns exactly one of a result and an error: a non-nil result with a nil error
if and only if `cdn.SetCdnDomainSSLCertificate` returned no error, and a nil
result with a non-nil error otherwise. -/
theorem AliyunCdn.Deploy_result_xor_error
    (d : DeployerProvider) (nowMilli : Int) (ctx : Context) (certPEM privkeyPEM : String) :
    ∃ result err,
      (Deploy d nowMilli ctx certPEM privkeyPEM).outcome = GoReturn.returned result err ∧
      ((result ≠ none ∧ err = none) ↔
        (d.sdkClient (setCdnDomainSSLCertificateReq d nowMilli certPEM privkeyPEM)).2 = none) ∧
      ((d.sdkClient (setCdnDomainSSLCertificateReq d nowMilli certPEM privkeyPEM)).2 ≠ none →
        result = none ∧ err ≠ none) := by
  cases hcall : (d.sdkClient (setCdnDomainSSLCertificateReq d nowMilli certPEM privkeyPEM)).2 with
  | none =>
    exact ⟨_, _, Deploy_outcome_of_success d nowMilli ctx certPEM privkeyPEM hcall, by simp, by simp⟩
  | some e =>
    exact ⟨_, _, Deploy_outcome_of_error d nowMilli ctx certPEM privkeyPEM e hcall, by simp, by simp⟩

/-- C3, counterexample: with a context that is already canceled, `Deploy` and
`Upload` still call the SDK and return a success result when the SDK call
succeeds. -/
theorem canceled_context_still_succeeds :
    canceledCtx.done = true ∧
    (AliyunCdn.Deploy AliyunCdn.okProvider 1700000000000 canceledCtx "CERT" "KEY").outcome =
      GoReturn.returned (some {}) none ∧
    (VolcengineCertcenter.Upload VolcengineCertcenter.bothIdsProvider canceledCtx
        "CERT" "KEY").outcome =
      GoReturn.returned (some { CertId := "cert-old" }) none ∧
    (VolcengineCertcenter.Upload VolcengineCertcenter.bothIdsProvider canceledCtx
        "CERT" "KEY").calls = [VolcengineCertcenter.importCertificateReq "CERT" "KEY"] :=
  ⟨rfl, rfl, rfl, rfl⟩

/-- C3, amended: neither `Deploy` nor `Upload` consults its context: for any
two contexts, live, canceled or past their deadline, the call hands the same
request to the SDK and ends the same way.  So under every context, a canceled
or expired one included, `Deploy` returns a success result whenever the SDK
call returns no error, and `Upload` returns a success result whenever the SDK
call returns a response and no error and `InstanceId` or `RepeatId` is
non-empty in the response. -/
theorem outcome_independent_of_context
    (d : AliyunCdn.DeployerProvider) (nowMilli : Int)
    (u : VolcengineCertcenter.UploaderProvider)
    (ctx ctx' : Context) (certPEM privkeyPEM : String) :
    AliyunCdn.Deploy d nowMilli ctx certPEM privkeyPEM =
      AliyunCdn.Deploy d nowMilli ctx' certPEM privkeyPEM ∧
    VolcengineCertcenter.Upload u ctx certPEM privkeyPEM =
      VolcengineCertcenter.Upload u ctx' certPEM privkeyPEM ∧
    ((d.sdkClient (AliyunCdn.setCdnDomainSSLCertificateReq d nowMilli certPEM privkeyPEM)).2 =
        none →
      (AliyunCdn.Deploy d nowMilli ctx certPEM privkeyPEM).outcome =
        GoReturn.returned (some {}) none) ∧
    (∀ resp : VolcengineCertcenter.ImportCertificateOutput,
      u.sdkClient (VolcengineCertcenter.importCertificateReq certPEM privkeyPEM) =
        (some resp, none) →
      ¬ ((resp.InstanceId = none ∨ resp.InstanceId = some "") ∧
         (resp.RepeatId = none ∨ resp.RepeatId = some "")) →
      ∃ r, (VolcengineCertcenter.Upload u ctx certPEM privkeyPEM).outcome =
        GoReturn.returned (some r) none ∧ r.CertId ≠ "") := by
  refine ⟨rfl, rfl, ?_, ?_⟩
  · intro hsdk
    exact Deploy_outcome_of_success d nowMilli ctx certPEM privkeyPEM hsdk
  · intro resp hsdk hids
    have hc : VolcengineCertcenter.certIdOf resp ≠ "" :=
      fun h => hids ((certIdOf_eq_empty_iff resp).mp h)
    refine ⟨{ CertId := VolcengineCertcenter.certIdOf resp }, ?_, hc⟩
    rw [Upload_outcome_of_response u ctx certPEM privkeyPEM resp hsdk, if_neg hc]

/-- C4: `Deploy` hands exactly one request to the SDK, and its `DomainName` is
the configured domain in Aliyun's wildcard format: a domain `"*" ++ rest` is
sent as `rest` (one leading `*` removed), and a domain that does not start with
`*` is sent unchanged. -/
theorem AliyunCdn.Deploy_domainName_wildcard
    (d : DeployerProvider) (nowMilli : Int) (ctx : Context) (certPEM privkeyPEM : String) :
    ∃ req, (Deploy d nowMilli ctx certPEM privkeyPEM).calls = [req] ∧
      (∀ rest : String, d.config.Domain = "*" ++ rest → req.DomainName = some rest) ∧
      ((∀ rest : String, d.config.Domain ≠ "*" ++ rest) →
        req.DomainName = some d.config.Domain) := by
  refine ⟨setCdnDomainSSLCertificateReq d nowMilli certPEM privkeyPEM, ?_, ?_, ?_⟩
  · unfold Deploy
    simp only
    split <;> rfl
  · intro rest hdom
    show some (stringsTrimPrefix d.config.Domain "*") = some rest
    rw [hdom, stringsTrimPrefix_star_append]
  · intro hdom
    show some (stringsTrimPrefix d.config.Domain "*") = some d.config.Domain
    rw [stringsTrimPrefix_star_of_no_star _ hdom]

/-- C4, at the domain `*.example.com`: the request names `.example.com`. -/
theorem AliyunCdn.Deploy_domainName_wildcard_witness :
    ∃ req, (Deploy okProvider 1700000000000 liveCtx "CERT" "KEY").calls = [req] ∧
      req.DomainName = some ".example.com" := by
  obtain ⟨req, hcalls, hstar, _⟩ :=
    Deploy_domainName_wildcard okProvider 1700000000000 liveCtx "CERT" "KEY"
  exact ⟨req, hcalls, hstar ".example.com" (by decide)⟩

/-- C5, counterexample: when the SDK call fails with the error `boom`, the
message of the error `Deploy` returns is the fixed text naming the SDK request
followed by `boom`; the provider's name, `aliyun-cdn` or `aliyuncdn` or even
`aliyun`, occurs nowhere in it. -/
theorem AliyunCdn.Deploy_error_lacks_provider_name :
    (Deploy boomProvider 1700000000000 liveCtx "CERT" "KEY").outcome =
      GoReturn.returned none (some (GoError.wrapError
        "failed to execute sdk request 'cdn.SetCdnDomainSSLCertificate': boom"
        (GoError.plain "boom"))) ∧
    stringsContains "failed to execute sdk request 'cdn.SetCdnDomainSSLCertificate': boom"
      providerDir = false ∧
    stringsContains "failed to execute sdk request 'cdn.SetCdnDomainSSLCertificate': boom"
      packageName = false ∧
    stringsContains "failed to execute sdk request 'cdn.SetCdnDomainSSLCertificate': boom"
      "aliyun" = false := by
  refine ⟨?_, ?_, ?_, ?_⟩
  · decide
  · decide
  · decide
  · decide

/-- C5, amended: when `cdn.SetCdnDomainSSLCertificate` fails with `e`, `Deploy`
returns no result and an error that unwraps to `e`, whose message is the text
`failed to execute sdk request 'cdn.SetCdnDomainSSLCertificate': ` followed by
the message of `e`; the message so carries the operation name, and the text
placed in front of the message of `e` does not name the provider. -/
theorem AliyunCdn.Deploy_wraps_sdk_error
    (d : DeployerProvider) (nowMilli : Int) (ctx : Context) (certPEM privkeyPEM : String)
    (e : GoError)
    (hsdk : (d.sdkClient (setCdnDomainSSLCertificateReq d nowMilli certPEM privkeyPEM)).2 =
      some e) :
    ∃ err, (Deploy d nowMilli ctx certPEM privkeyPEM).outcome =
        GoReturn.returned none (some err) ∧
      err.Unwrap = some e ∧
      err.Error =
        "failed to execute sdk request 'cdn.SetCdnDomainSSLCertificate': " ++ e.Error ∧
      stringsContains err.Error "cdn.SetCdnDomainSSLCertificate" = true ∧
      stringsContains "failed to execute sdk request 'cdn.SetCdnDomainSSLCertificate': "
        "aliyun" = false := by
  refine ⟨_, Deploy_outcome_of_error d nowMilli ctx certPEM privkeyPEM e hsdk, rfl, rfl, ?_, ?_⟩
  · have h := stringsContains_infix "failed to execute sdk request '"
      "cdn.SetCdnDomainSSLCertificate" ("': " ++ e.Error)
    have hmsg : (fmtErrorfW "failed to execute sdk request 'cdn.SetCdnDomainSSLCertificate': "
        e).Error = "failed to execute sdk request '" ++ "cdn.SetCdnDomainSSLCertificate" ++
          ("': " ++ e.Error) := by
      show "failed to execute sdk request 'cdn.SetCdnDomainSSLCertificate': " ++ e.Error = _
      have hlead : "failed to execute sdk request 'cdn.SetCdnDomainSSLCertificate': " =
          "failed to execute sdk request '" ++ "cdn.SetCdnDomainSSLCertificate" ++ "': " := by
        decide
      rw [hlead]
      simp only [String.append_assoc]
    rw [hmsg]
    exact h
  · decide

/-- C5 amended, at the SDK error `boom`. -/
theorem AliyunCdn.Deploy_wraps_sdk_error_witness :
    (boomProvider.sdkClient
        (setCdnDomainSSLCertificateReq boomProvider 1700000000000 "CERT" "KEY")).2 =
      some (GoError.plain "boom") ∧
    ∃ err, (Deploy boomProvider 1700000000000 liveCtx "CERT" "KEY").outcome =
        GoReturn.returned none (some err) ∧
      err.Unwrap = some (GoError.plain "boom") ∧
      err.Error = "failed to execute sdk request 'cdn.SetCdnDomainSSLCertificate': boom" := by
  refine ⟨rfl, ?_⟩
  obtain ⟨err, hout, hun, hmsg, _, _⟩ :=
    Deploy_wraps_sdk_error boomProvider 1700000000000 liveCtx "CERT" "KEY"
      (GoError.plain "boom") rfl
  exact ⟨err, hout, hun, hmsg.trans (by decide)⟩

/-- C6: for every region string, `createSdkClient` opens exactly one session,
and the region of the configuration it opens it with is `cn-beijing` when the
given region is empty and the given region verbatim when it is not. -/
theorem VolcengineCertcenter.createSdkClient_region_default {σ : Type}
    (NewSession : VeConfig → Option σ × Option GoError) (New : Option σ → SdkClient)
    (accessKeyId accessKeySecret region : String) :
    ∃ config,
      (createSdkClient NewSession New accessKeyId accessKeySecret region).calls = [config] ∧
      (region = "" → config.Region = some "cn-beijing") ∧
      (region ≠ "" → config.Region = some region) := by
  refine ⟨sessionConfig accessKeyId accessKeySecret region, ?_, ?_, ?_⟩
  · unfold createSdkClient
    simp only
    split <;> rfl
  · intro hregion
    subst hregion
    rfl
  · intro hregion
    show some (if region = "" then "cn-beijing" else region) = some region
    rw [if_neg hregion]

/-- C7: in every graph that `Validate` accepts, whatever its later checks
are, every node of the graph, nested branches included, has `Next` and
`Branches` mutually exclusive: no node has both a non-nil `Next` and a
non-empty `Branches`. -/
theorem Domain.Validate_next_branches_exclusive
    (laterChecks : WorkflowNode → WorkflowNode → Option ViolationKind)
    (graph n : WorkflowNode)
    (hvalid : Validate laterChecks graph = [])
    (hn : InGraph graph n) :
    ¬ (n.Next ≠ none ∧ n.Branches ≠ []) := by
  have hnodes : graph.nodes.filterMap (nodeViolation laterChecks graph) = [] :=
    (List.append_eq_nil.mp hvalid).2
  have hmem : n ∈ graph.nodes := mem_nodes_of_inGraph graph n hn
  have hnone : nodeViolation laterChecks graph n = none :=
    List.filterMap_eq_nil_iff.mp hnodes n hmem
  have hex := exclusive_of_nodeViolation_none laterChecks graph n hnone
  rintro ⟨hnext, hbranches⟩
  unfold WorkflowNode.hasNext WorkflowNode.hasBranches at hex
  cases hN : n.Next with
  | none => exact hnext hN
  | some m =>
    cases hB : n.Branches with
    | nil => exact hbranches hB
    | cons b bs => simp [hN, hB] at hex

/-- C7, at the `deploy` node of the valid graph `start -> deploy -> end`;
the graph `branchGraph`, whose node `n2` has both a successor and branches, is
not accepted. -/
theorem Domain.Validate_next_branches_exclusive_witness :
    Validate noLaterChecks linearGraph = [] ∧ InGraph linearGraph deployThenEnd ∧
    ¬ (deployThenEnd.Next ≠ none ∧ deployThenEnd.Branches ≠ []) ∧
    Validate noLaterChecks branchGraph =
      [{ kind := ViolationKind.NextAndBranches, nodeId := "n2" }] :=
  ⟨by decide, InGraph.next rfl (InGraph.root _),
    Validate_next_branches_exclusive noLaterChecks linearGraph deployThenEnd (by decide)
      (InGraph.next rfl (InGraph.root _)),
    by decide⟩

end Certimate
